import Mathlib

/-!
Shallow embedding of the matchmaking / battle / rank-progression core of the
testTetris repository (sources: `src/online/rankManager.ts` and
`src/online/constants.ts` [= `unnamed/part_002` and the tail of `billing.ts`],
`src/online/battleGame.ts` [middle section of `billing.ts`], and
`src/online/matchmaking.ts` [tail of `online/index.ts`]).

Modelling conventions:
- JS `number` values that the code uses as integers (points, hearts, garbage
  lines, timestamps in milliseconds) are modelled as `Int`.
- Timestamps (`Date.now()`, the ISO strings stored in `hearts_recharged_at`
  and `created_at`) are modelled as epoch milliseconds (`Int`).
- The Supabase backing store is modelled as explicit state that each operation
  takes and returns; the Supabase client is assumed available (the
  `if (!client) return` guards of the source are degenerate no-op paths and
  are not the subject of any claim), and store writes succeed unless noted.
- `while` loops are translated twice: as well-founded recursion (`promoLoop`,
  `demoLoop`, the authoritative translation) and as fuel-indexed structural
  recursion (`promoLoopGo`, `demoLoopGo`) which the kernel can evaluate;
  soundness and adequacy lemmas connect the two.
-/

/-- The `TierKey` union type of `src/online/types.ts`. -/
inductive TierKey where
  | Iron
  | Bronze
  | Silver
  | Gold
  | Platinum
  | Emerald
  | Diamond
  | Master
  | Grandmaster
  | Challenger
deriving DecidableEq, Repr

/-- `TIER_ORDER` from `src/online/constants.ts` (lowest to highest). -/
def TIER_ORDER : List TierKey :=
  [TierKey.Iron, TierKey.Bronze, TierKey.Silver, TierKey.Gold, TierKey.Platinum,
   TierKey.Emerald, TierKey.Diamond, TierKey.Master, TierKey.Grandmaster,
   TierKey.Challenger]

def POINTS_PER_DIVISION : Int := 100

def WIN_POINTS : Int := 12

def LOSS_POINTS : Int := 4

def MAX_ONLINE_HEARTS : Int := 5

def ONLINE_HEART_RECHARGE_MS : Int := 30 * 60 * 1000

def COUNTDOWN_SECONDS : Int := 3

/-- JavaScript `Array.prototype.indexOf`: the index of the element, `-1` when
absent. -/
def jsIndexOf (l : List TierKey) (t : TierKey) : Int :=
  if l.contains t then (l.indexOf t : Int) else -1

/-- JavaScript array subscript `TIER_ORDER[i]`: `none` models `undefined` for
an out-of-range (or negative) index. -/
def tierAt (i : Int) : Option TierKey :=
  if 0 ≤ i then TIER_ORDER[i.toNat]? else none

/-- The `PlayerRank` record of `src/online/types.ts` (one stored row of the
`player_ranks` table). `heartsRechargedAt` is the recharge anchor, in epoch
milliseconds (`null` modelled as `none`). -/
structure PlayerRank where
  userId : String
  tier : TierKey
  division : Int
  points : Int
  totalPoints : Int
  wins : Int
  losses : Int
  onlineHearts : Int
  heartsRechargedAt : Option Int
deriving DecidableEq, Repr

/-- The promotion `while (points >= POINTS_PER_DIVISION)` loop of
`calculateNewRank` (rankManager.ts). State is `(points, division, tierIndex)`. -/
def promoLoop (points : Int) (division : Int) (tierIndex : Int) : Int × Int × Int :=
  if h : points ≥ POINTS_PER_DIVISION then
    let points1 := points - POINTS_PER_DIVISION
    if division > 1 then
      promoLoop points1 (division - 1) tierIndex
    else if tierIndex < (TIER_ORDER.length : Int) - 1 then
      promoLoop points1 4 (tierIndex + 1)
    else
      (POINTS_PER_DIVISION - 1, division, tierIndex)
  else
    (points, division, tierIndex)
termination_by points.toNat
decreasing_by
  all_goals
    simp only [POINTS_PER_DIVISION] at h ⊢
    omega

/-- The demotion `while (points < 0)` loop of `calculateNewRank`. -/
def demoLoop (points : Int) (division : Int) (tierIndex : Int) : Int × Int × Int :=
  if h : points < 0 then
    if division < 4 then
      demoLoop (points + POINTS_PER_DIVISION) (division + 1) tierIndex
    else if tierIndex > 0 then
      demoLoop (points + POINTS_PER_DIVISION) 1 (tierIndex - 1)
    else
      (0, division, tierIndex)
  else
    (points, division, tierIndex)
termination_by (-points).toNat
decreasing_by
  all_goals
    simp only [POINTS_PER_DIVISION] at h ⊢
    omega

/-- Fuel-indexed version of `promoLoop`; `none` means the fuel ran out before
the loop exited. -/
def promoLoopGo : Nat → Int → Int → Int → Option (Int × Int × Int)
  | 0, _, _, _ => none
  | fuel + 1, points, division, tierIndex =>
    if points ≥ POINTS_PER_DIVISION then
      let points1 := points - POINTS_PER_DIVISION
      if division > 1 then
        promoLoopGo fuel points1 (division - 1) tierIndex
      else if tierIndex < (TIER_ORDER.length : Int) - 1 then
        promoLoopGo fuel points1 4 (tierIndex + 1)
      else
        some (POINTS_PER_DIVISION - 1, division, tierIndex)
    else
      some (points, division, tierIndex)

/-- Fuel-indexed version of `demoLoop`. -/
def demoLoopGo : Nat → Int → Int → Int → Option (Int × Int × Int)
  | 0, _, _, _ => none
  | fuel + 1, points, division, tierIndex =>
    if points < 0 then
      if division < 4 then
        demoLoopGo fuel (points + POINTS_PER_DIVISION) (division + 1) tierIndex
      else if tierIndex > 0 then
        demoLoopGo fuel (points + POINTS_PER_DIVISION) 1 (tierIndex - 1)
      else
        some (0, division, tierIndex)
    else
      some (points, division, tierIndex)

/-- Result of `calculateNewRank`: the `{ tier, division, points }` object it
returns. `tier` is `TIER_ORDER[tierIndex]`, hence an `Option`. -/
structure NewRank where
  tier : Option TierKey
  division : Int
  points : Int
deriving DecidableEq, Repr

/-- `calculateNewRank` from rankManager.ts: add the delta, run the promotion
loop, then the demotion loop, and read the resulting tier back from
`TIER_ORDER`. -/
def calculateNewRank (current : PlayerRank) (pointsDelta : Int) : NewRank :=
  let points0 := current.points + pointsDelta
  let division0 := current.division
  let tierIndex0 := jsIndexOf TIER_ORDER current.tier
  let s1 := promoLoop points0 division0 tierIndex0
  let s2 := demoLoop s1.1 s1.2.1 s1.2.2
  { tier := tierAt s2.2.2, division := s2.2.1, points := s2.1 }

/-- Fuel-indexed, kernel-evaluable version of `calculateNewRank`. -/
def calculateNewRankGo (fuel : Nat) (current : PlayerRank) (pointsDelta : Int) :
    Option NewRank :=
  (promoLoopGo fuel (current.points + pointsDelta) current.division
      (jsIndexOf TIER_ORDER current.tier)).bind fun s1 =>
    (demoLoopGo fuel s1.1 s1.2.1 s1.2.2).bind fun s2 =>
      some { tier := tierAt s2.2.2, division := s2.2.1, points := s2.1 }

/-- `getTierValue` from rankManager.ts: the linearized rank used to compare
before/after (tier index × 4 + (4 − division)). -/
def getTierValue (tier : TierKey) (division : Int) : Int :=
  jsIndexOf TIER_ORDER tier * 4 + (4 - division)

/-- `getTierValue` as the JS code would behave when handed the possibly
`undefined` tier of a `calculateNewRank` result (`indexOf(undefined) = -1`). -/
def getTierValueOpt (tier : Option TierKey) (division : Int) : Int :=
  match tier with
  | some tk => getTierValue tk division
  | none => -1 * 4 + (4 - division)

/-- A `{ tier, division, points }` snapshot inside a `RankChange`. -/
structure RankSnapshot where
  tier : Option TierKey
  division : Int
  points : Int
deriving DecidableEq, Repr

/-- The `RankChange` record of `src/online/types.ts`. -/
structure RankChange where
  before : RankSnapshot
  after : RankSnapshot
  pointsDelta : Int
  promoted : Bool
  demoted : Bool
deriving DecidableEq, Repr

/-- The pure content of `updateRankAfterMatch` (rankManager.ts): the
`RankChange` it returns for a given current stored rank. The accompanying DB
write persists `after` together with updated `total_points`/`wins`/`losses`;
none of the claims consult those counters. -/
def updateRankAfterMatch (currentRank : PlayerRank) (isWin : Bool) : RankChange :=
  let before : RankSnapshot :=
    { tier := some currentRank.tier, division := currentRank.division,
      points := currentRank.points }
  let pointsDelta := if isWin then WIN_POINTS else -LOSS_POINTS
  let newRank := calculateNewRank currentRank pointsDelta
  let after : RankSnapshot :=
    { tier := newRank.tier, division := newRank.division, points := newRank.points }
  { before := before, after := after, pointsDelta := pointsDelta,
    promoted := decide
      (getTierValueOpt after.tier after.division >
        getTierValueOpt before.tier before.division),
    demoted := decide
      (getTierValueOpt after.tier after.division <
        getTierValueOpt before.tier before.division) }

/-- `rechargeHeartsIfNeeded` (rankManager.ts). Argument `rank` is the fetched
stored row, `now` is `Date.now()`. Returns `(stored row after the DB update,
the in-memory rank the function returns)`. Note the in-memory return value
keeps the OLD `heartsRechargedAt` even when the DB row gets a new anchor. -/
def rechargeHeartsIfNeeded (rank : PlayerRank) (now : Int) : PlayerRank × PlayerRank :=
  if rank.onlineHearts ≥ MAX_ONLINE_HEARTS then (rank, rank)
  else
    match rank.heartsRechargedAt with
    | none => (rank, rank)
    | some lastRecharge =>
      let elapsed := now - lastRecharge
      let heartsToAdd := Int.fdiv elapsed ONLINE_HEART_RECHARGE_MS
      if heartsToAdd ≤ 0 then (rank, rank)
      else
        let newHearts := min MAX_ONLINE_HEARTS (rank.onlineHearts + heartsToAdd)
        let stored :=
          { rank with
            onlineHearts := newHearts,
            heartsRechargedAt :=
              if newHearts < MAX_ONLINE_HEARTS then some now else none }
        let returned := { rank with onlineHearts := newHearts }
        (stored, returned)

/-- `useOnlineHeart` (rankManager.ts). `stored` is the row
`getOrCreatePlayerRank` fetched. Returns `(result, stored row afterwards)`.
Note the source checks `rank.onlineHearts <= 0` BEFORE calling
`rechargeHeartsIfNeeded`. -/
def useOnlineHeart (stored : PlayerRank) (now : Int) : Bool × PlayerRank :=
  if stored.onlineHearts ≤ 0 then (false, stored)
  else
    let rr := rechargeHeartsIfNeeded stored now
    if rr.2.onlineHearts ≤ 0 then (false, rr.1)
    else
      let newHearts := rr.2.onlineHearts - 1
      (true,
        { rr.1 with
          onlineHearts := newHearts,
          heartsRechargedAt :=
            if newHearts < MAX_ONLINE_HEARTS then some now else none })

/-- `getOnlineHearts` (rankManager.ts). Returns
`((hearts, nextRechargeIn), stored row afterwards)`. -/
def getOnlineHearts (stored : PlayerRank) (now : Int) :
    (Int × Option Int) × PlayerRank :=
  let rr := rechargeHeartsIfNeeded stored now
  let nextRechargeIn : Option Int :=
    if rr.2.onlineHearts < MAX_ONLINE_HEARTS then
      match rr.2.heartsRechargedAt with
      | some lastRecharge =>
        some (max 0 (lastRecharge + ONLINE_HEART_RECHARGE_MS - now))
      | none => none
    else none
  ((rr.2.onlineHearts, nextRechargeIn), rr.1)

/-- `getMatchableTiers` (rankManager.ts): the tier itself plus in-range
immediate neighbors. -/
def getMatchableTiers (tier : TierKey) : List TierKey :=
  let tierIndex := jsIndexOf TIER_ORDER tier
  ([tierIndex - 1, tierIndex, tierIndex + 1]).filterMap tierAt

/-- The `result` field of `BattleState`. -/
inductive BattleResult where
  | pending
  | win
  | loss
deriving DecidableEq, Repr

/-- The fields of `NetworkGameState` that the battle module reads; the full
snapshot also carries grid/level/combo/piece data irrelevant to every claim. -/
structure NetworkGameState where
  playerId : String
  score : Int
  lines : Int
deriving DecidableEq, Repr

/-- The in-memory `BattleState` of `src/online/types.ts`. -/
structure BattleState where
  matchId : String
  myUserId : String
  opponentId : String
  opponentName : String
  myState : Option NetworkGameState
  opponentState : Option NetworkGameState
  incomingGarbage : Int
  garbageSent : Int
  isStarted : Bool
  countdown : Int
  result : BattleResult
deriving DecidableEq, Repr

/-- A message sent over the `BattleChannel` by the battle module. -/
inductive ChannelMsg where
  | garbageAttack (lines : Int)
  | gameOver
  | ready
  | countdown (count : Int)
deriving DecidableEq, Repr

/-- The module-level mutable state of battleGame.ts. `battleChannel` and
`countdownInterval` model whether those handles are non-null; `sentMessages`
records what was sent over the channel; `endBattleRuns` counts how many times
the `endBattle` termination sequence ran (its external effects — match-status,
score, rank and history writes plus the result callback — are abstracted to
this counter). -/
structure BattleGameModule where
  battleState : Option BattleState
  battleChannel : Bool
  countdownInterval : Bool
  sentMessages : List ChannelMsg
  endBattleRuns : Nat
deriving DecidableEq, Repr

/-- `GARBAGE_TABLE` from constants.ts, a `Record<number, number>`:
`none` models a missing key (`undefined`). -/
def GARBAGE_TABLE (linesCleared : Int) : Option Int :=
  if linesCleared = 1 then some 0
  else if linesCleared = 2 then some 1
  else if linesCleared = 3 then some 2
  else if linesCleared = 4 then some 4
  else none

/-- `onLinesCleared` (battleGame.ts). `GARBAGE_TABLE[linesCleared] || 0`
is `(GARBAGE_TABLE linesCleared).getD 0`. -/
def onLinesCleared (m : BattleGameModule) (linesCleared : Int) : BattleGameModule :=
  match m.battleState with
  | none => m
  | some st =>
    if !m.battleChannel then m
    else if !st.isStarted then m
    else
      let garbageToSend := (GARBAGE_TABLE linesCleared).getD 0
      if garbageToSend ≤ 0 then m
      else if st.incomingGarbage > 0 then
        let cancelled := min st.incomingGarbage garbageToSend
        let incoming1 := st.incomingGarbage - cancelled
        let actualGarbage := garbageToSend - cancelled
        if actualGarbage > 0 then
          { m with
            battleState := some
              { st with incomingGarbage := incoming1,
                        garbageSent := st.garbageSent + actualGarbage },
            sentMessages := m.sentMessages ++ [ChannelMsg.garbageAttack actualGarbage] }
        else
          { m with battleState := some { st with incomingGarbage := incoming1 } }
      else
        { m with
          battleState := some { st with garbageSent := st.garbageSent + garbageToSend },
          sentMessages := m.sentMessages ++ [ChannelMsg.garbageAttack garbageToSend] }

/-- `startCountdown` (battleGame.ts): schedules the countdown interval timer
(the per-second ticking itself is asynchronous and not part of the
synchronous call). -/
def startCountdown (m : BattleGameModule) : BattleGameModule :=
  if !m.battleChannel then m
  else
    match m.battleState with
    | none => m
    | some _ => { m with countdownInterval := true }

/-- `handleOpponentReady` (battleGame.ts), the callback invoked when the
opponent's `player_ready` broadcast arrives. -/
def handleOpponentReady (m : BattleGameModule) : BattleGameModule :=
  match m.battleState with
  | none => m
  | some st =>
    if st.myUserId < st.opponentId then startCountdown m else m

/-- `endBattle` (battleGame.ts): stops the sync loop and performs the
post-match bookkeeping (status/score/rank/history writes, result callback);
those external effects are abstracted into the `endBattleRuns` counter. -/
def endBattle (m : BattleGameModule) (isWin : Bool) : BattleGameModule :=
  match m.battleState, isWin with
  | none, _ => m
  | some _, _ => { m with endBattleRuns := m.endBattleRuns + 1 }

/-- `handleOpponentGameOver` (battleGame.ts). -/
def handleOpponentGameOver (m : BattleGameModule) : BattleGameModule :=
  match m.battleState with
  | none => m
  | some st =>
    if st.result ≠ BattleResult.pending then m
    else
      endBattle
        { m with battleState := some { st with result := BattleResult.win } } true

/-- `onMyGameOver` (battleGame.ts). -/
def onMyGameOver (m : BattleGameModule) : BattleGameModule :=
  match m.battleState with
  | none => m
  | some st =>
    if !m.battleChannel then m
    else if st.result ≠ BattleResult.pending then m
    else
      endBattle
        { m with
          battleState := some { st with result := BattleResult.loss },
          sentMessages := m.sentMessages ++ [ChannelMsg.gameOver] } false

/-- Status column of a `matchmaking_queue` row. -/
inductive QueueStatus where
  | waiting
  | matched
  | cancelled
deriving DecidableEq, Repr

/-- A `matchmaking_queue` row. `createdAt` in epoch milliseconds. -/
structure QueueEntry where
  userId : String
  displayName : String
  tier : TierKey
  division : Int
  totalPoints : Int
  status : QueueStatus
  createdAt : Int
deriving DecidableEq, Repr

/-- Status column of a `matches` row. -/
inductive MatchStatus where
  | pending
  | playing
  | finished
  | abandoned
deriving DecidableEq, Repr

/-- The columns of a `matches` row that `tryFindOpponent` inserts. -/
structure MatchRow where
  player1Id : String
  player2Id : String
  player1Name : String
  player2Name : String
  status : MatchStatus
deriving DecidableEq, Repr

/-- The shared backing store visible to matchmaking: the queue table and the
matches table. -/
structure OnlineStore where
  queue : List QueueEntry
  matchRows : List MatchRow
deriving DecidableEq, Repr

/-- The candidate select of `tryFindOpponent`:
`neq user_id ∧ status = waiting ∧ tier ∈ matchableTiers`,
`order by created_at asc`, `limit 1`. -/
def selectOldestCandidate (queue : List QueueEntry) (userId : String)
    (tiers : List TierKey) : Option QueueEntry :=
  let matching := queue.filter fun e =>
    decide (e.userId ≠ userId) && decide (e.status = QueueStatus.waiting) &&
      tiers.contains e.tier
  matching.foldl
    (fun acc e =>
      match acc with
      | none => some e
      | some b => if e.createdAt < b.createdAt then some e else some b)
    none

/-- How many rows the conditional update
`update({status:'matched'}).in('user_id',[selfId,oppId]).eq('status','waiting')`
matches. The source never observes this count: a PostgREST update that matches
fewer rows than intended (even zero) completes without an error. -/
def matchedFlipAffectedRows (queue : List QueueEntry) (selfId oppId : String) : Nat :=
  (queue.filter fun e =>
    (decide (e.userId = selfId) || decide (e.userId = oppId)) &&
      decide (e.status = QueueStatus.waiting)).length

/-- The effect of that conditional update on the queue table. -/
def matchedFlipApply (queue : List QueueEntry) (selfId oppId : String) :
    List QueueEntry :=
  queue.map fun e =>
    if (e.userId = selfId ∨ e.userId = oppId) ∧ e.status = QueueStatus.waiting then
      { e with status := QueueStatus.matched }
    else e

/-- `tryFindOpponent` (matchmaking.ts), one pairing attempt executed against
the store. The update's error flag is only set by transport failures (modelled
as absent in normal operation), so the source proceeds to create the match
whenever a candidate was selected; the match-creation insert likewise succeeds
in normal operation, and the broadcast notification carries no store effect. -/
def tryFindOpponent (store : OnlineStore) (userId : String) (rank : PlayerRank) :
    OnlineStore :=
  let matchableTiers := getMatchableTiers rank.tier
  match selectOldestCandidate store.queue userId matchableTiers with
  | none => store
  | some opponent =>
    let queue1 := matchedFlipApply store.queue userId opponent.userId
    let myName :=
      match queue1.find? (fun e => decide (e.userId = userId)) with
      | some e => if e.displayName = "" then "Player 1" else e.displayName
      | none => "Player 1"
    let newMatch : MatchRow :=
      { player1Id := userId, player2Id := opponent.userId,
        player1Name := myName, player2Name := opponent.displayName,
        status := MatchStatus.pending }
    { queue := queue1, matchRows := store.matchRows ++ [newMatch] }

/-- Sample rank: Gold division 2 with 80 points (claim C5 scenario). -/
def goldRank80 : PlayerRank :=
  { userId := "playerA", tier := TierKey.Gold, division := 2, points := 80,
    totalPoints := 0, wins := 0, losses := 0, onlineHearts := 5,
    heartsRechargedAt := none }

/-- Sample rank: Gold division 2 with 92 points (claim C5 scenario). -/
def goldRank92 : PlayerRank :=
  { goldRank80 with points := 92 }

/-- Sample rank: zero stored hearts with a recharge anchor at time 0. -/
def zeroHeartsRank : PlayerRank :=
  { userId := "playerB", tier := TierKey.Iron, division := 4, points := 0,
    totalPoints := 0, wins := 0, losses := 0, onlineHearts := 0,
    heartsRechargedAt := some 0 }

/-- Sample rank: four stored hearts with a recharge anchor at time 0. -/
def fourHeartsRank : PlayerRank :=
  { zeroHeartsRank with onlineHearts := 4 }

/-- Sample rank: full hearts (no recharge ever due). -/
def fullHeartsRank : PlayerRank :=
  { zeroHeartsRank with onlineHearts := 5, heartsRechargedAt := none }

/-- Sample battle state: the local player is the host ("a" < "b"), battle not
yet started, no countdown pending. -/
def hostState : BattleState :=
  { matchId := "m1", myUserId := "a", opponentId := "b",
    opponentName := "Bob", myState := none, opponentState := none,
    incomingGarbage := 0, garbageSent := 0, isStarted := false,
    countdown := 3, result := BattleResult.pending }

/-- Sample battle session for the host; no ready signal has been sent by the
local player (empty `sentMessages`). -/
def hostModule : BattleGameModule :=
  { battleState := some hostState, battleChannel := true,
    countdownInterval := false, sentMessages := [], endBattleRuns := 0 }

/-- Sample battle state: started, with 3 lines of unresolved incoming garbage
(claim C6 scenario). -/
def garbageState : BattleState :=
  { hostState with incomingGarbage := 3, isStarted := true, countdown := -1 }

/-- Sample battle session holding `garbageState`. -/
def garbageModule : BattleGameModule :=
  { battleState := some garbageState, battleChannel := true,
    countdownInterval := false, sentMessages := [], endBattleRuns := 0 }

/-- Sample battle state: started, no incoming garbage. -/
def cleanState : BattleState :=
  { hostState with isStarted := true, countdown := -1 }

/-- Sample battle session holding `cleanState`. -/
def cleanModule : BattleGameModule :=
  { battleState := some cleanState, battleChannel := true,
    countdownInterval := false, sentMessages := [], endBattleRuns := 0 }

/-- Sample battle state whose result is already resolved to `win`. -/
def finishedState : BattleState :=
  { hostState with
    garbageSent := 2, isStarted := true, countdown := -1,
    result := BattleResult.win }

/-- Sample battle session holding `finishedState`, after one termination run. -/
def finishedModule : BattleGameModule :=
  { battleState := some finishedState, battleChannel := true,
    countdownInterval := false, sentMessages := [], endBattleRuns := 1 }

/-- Sample store for claim C1: alice's own queue entry was already flipped to
`matched` by a concurrent pairing (she lost the race), while another player,
carol, is still `waiting` in a matchable tier. -/
def racedStore : OnlineStore :=
  { queue :=
      [{ userId := "alice", displayName := "Alice", tier := TierKey.Iron,
         division := 4, totalPoints := 0, status := QueueStatus.matched,
         createdAt := 0 },
       { userId := "carol", displayName := "Carol", tier := TierKey.Iron,
         division := 4, totalPoints := 0, status := QueueStatus.waiting,
         createdAt := 5 }],
    matchRows := [] }

/-- Alice's rank snapshot used by the pairing attempt in `racedStore`. -/
def aliceRank : PlayerRank :=
  { userId := "alice", tier := TierKey.Iron, division := 4, points := 0,
    totalPoints := 0, wins := 0, losses := 0, onlineHearts := 5,
    heartsRechargedAt := none }

theorem promoLoopGo_sound (fuel : Nat) :
    ∀ (p d t : Int) (r : Int × Int × Int),
      promoLoopGo fuel p d t = some r → promoLoop p d t = r := by
  induction fuel with
  | zero => intro p d t r h; simp [promoLoopGo] at h
  | succ n ih =>
    intro p d t r h
    rw [promoLoop.eq_def]
    simp only [promoLoopGo] at h
    split_ifs at h ⊢ with h1 h2 h3
    · exact ih _ _ _ _ h
    · exact ih _ _ _ _ h
    · exact (Option.some_injective _ h)
    · exact (Option.some_injective _ h)

theorem demoLoopGo_sound (fuel : Nat) :
    ∀ (p d t : Int) (r : Int × Int × Int),
      demoLoopGo fuel p d t = some r → demoLoop p d t = r := by
  induction fuel with
  | zero => intro p d t r h; simp [demoLoopGo] at h
  | succ n ih =>
    intro p d t r h
    rw [demoLoop.eq_def]
    simp only [demoLoopGo] at h
    split_ifs at h ⊢ with h1 h2 h3
    · exact ih _ _ _ _ h
    · exact ih _ _ _ _ h
    · exact (Option.some_injective _ h)
    · exact (Option.some_injective _ h)

theorem promoLoopGo_fuel_enough (n : Nat) :
    ∀ (p d t : Int), p.toNat ≤ n → (promoLoopGo (n + 1) p d t).isSome := by
  induction n with
  | zero =>
    intro p d t hp
    have hlt : ¬ p ≥ POINTS_PER_DIVISION := by
      simp only [POINTS_PER_DIVISION]; omega
    simp [promoLoopGo, hlt]
  | succ n ih =>
    intro p d t hp
    rw [promoLoopGo]
    split_ifs with h1 h2 h3
    · exact ih _ _ _ (by simp only [POINTS_PER_DIVISION] at h1 ⊢; omega)
    · exact ih _ _ _ (by simp only [POINTS_PER_DIVISION] at h1 ⊢; omega)
    · simp
    · simp

theorem demoLoopGo_fuel_enough (n : Nat) :
    ∀ (p d t : Int), (-p).toNat ≤ n → (demoLoopGo (n + 1) p d t).isSome := by
  induction n with
  | zero =>
    intro p d t hp
    have hge : ¬ p < 0 := by omega
    simp [demoLoopGo, hge]
  | succ n ih =>
    intro p d t hp
    rw [demoLoopGo]
    split_ifs with h1 h2 h3
    · apply ih _ _ _ _
      simp only [POINTS_PER_DIVISION]
      omega
    · apply ih _ _ _ _
      simp only [POINTS_PER_DIVISION]
      omega
    · simp
    · simp

theorem promoLoopGo_mono (f1 : Nat) :
    ∀ (f2 : Nat) (p d t : Int) (r : Int × Int × Int), f1 ≤ f2 →
      promoLoopGo f1 p d t = some r → promoLoopGo f2 p d t = some r := by
  induction f1 with
  | zero => intro f2 p d t r _ h; simp [promoLoopGo] at h
  | succ n ih =>
    intro f2 p d t r hle h
    obtain ⟨f2', rfl⟩ : ∃ m, f2 = m + 1 := ⟨f2 - 1, by omega⟩
    rw [promoLoopGo]
    simp only [promoLoopGo] at h
    split_ifs at h ⊢ with h1 h2 h3
    · exact ih _ _ _ _ _ (by omega) h
    · exact ih _ _ _ _ _ (by omega) h
    · exact h
    · exact h

theorem demoLoopGo_mono (f1 : Nat) :
    ∀ (f2 : Nat) (p d t : Int) (r : Int × Int × Int), f1 ≤ f2 →
      demoLoopGo f1 p d t = some r → demoLoopGo f2 p d t = some r := by
  induction f1 with
  | zero => intro f2 p d t r _ h; simp [demoLoopGo] at h
  | succ n ih =>
    intro f2 p d t r hle h
    obtain ⟨f2', rfl⟩ : ∃ m, f2 = m + 1 := ⟨f2 - 1, by omega⟩
    rw [demoLoopGo]
    simp only [demoLoopGo] at h
    split_ifs at h ⊢ with h1 h2 h3
    · exact ih _ _ _ _ _ (by omega) h
    · exact ih _ _ _ _ _ (by omega) h
    · exact h
    · exact h

theorem promoLoopGo_bounds (fuel : Nat) :
    ∀ (p d t : Int) (r : Int × Int × Int), promoLoopGo fuel p d t = some r →
      1 ≤ d → d ≤ 4 → 0 ≤ t → t ≤ (TIER_ORDER.length : Int) - 1 →
      r.1 < POINTS_PER_DIVISION ∧ 1 ≤ r.2.1 ∧ r.2.1 ≤ 4 ∧ 0 ≤ r.2.2 ∧
        r.2.2 ≤ (TIER_ORDER.length : Int) - 1 := by
  induction fuel with
  | zero => intro p d t r h; simp [promoLoopGo] at h
  | succ n ih =>
    intro p d t r h hd1 hd4 ht0 ht9
    simp only [promoLoopGo] at h
    split_ifs at h with h1 h2 h3
    · exact ih _ _ _ _ h (by omega) (by omega) ht0 ht9
    · exact ih _ _ _ _ h (by omega) (by omega) (by omega) (by omega)
    · obtain rfl := Option.some_injective _ h
      refine ⟨?_, ?_, ?_, ?_, ?_⟩ <;> simp <;> omega
    · obtain rfl := Option.some_injective _ h
      refine ⟨?_, ?_, ?_, ?_, ?_⟩ <;> simp <;> omega

theorem demoLoopGo_bounds (fuel : Nat) :
    ∀ (p d t : Int) (r : Int × Int × Int), demoLoopGo fuel p d t = some r →
      p < POINTS_PER_DIVISION → 1 ≤ d → d ≤ 4 → 0 ≤ t →
      t ≤ (TIER_ORDER.length : Int) - 1 →
      0 ≤ r.1 ∧ r.1 < POINTS_PER_DIVISION ∧ 1 ≤ r.2.1 ∧ r.2.1 ≤ 4 ∧ 0 ≤ r.2.2 ∧
        r.2.2 ≤ (TIER_ORDER.length : Int) - 1 := by
  induction fuel with
  | zero => intro p d t r h; simp [demoLoopGo] at h
  | succ n ih =>
    intro p d t r h hp hd1 hd4 ht0 ht9
    simp only [demoLoopGo] at h
    split_ifs at h with h1 h2 h3
    · refine ih _ _ _ _ h ?_ (by omega) (by omega) ht0 ht9
      simp only [POINTS_PER_DIVISION] at *
      omega
    · refine ih _ _ _ _ h ?_ (by omega) (by omega) (by omega) (by omega)
      simp only [POINTS_PER_DIVISION] at *
      omega
    · obtain rfl := Option.some_injective _ h
      refine ⟨?_, ?_, ?_, ?_, ?_, ?_⟩ <;> simp [POINTS_PER_DIVISION] <;> omega
    · obtain rfl := Option.some_injective _ h
      refine ⟨?_, ?_, ?_, ?_, ?_, ?_⟩ <;> simp <;> omega

theorem jsIndexOf_TIER_ORDER_bounds (t : TierKey) :
    0 ≤ jsIndexOf TIER_ORDER t ∧
      jsIndexOf TIER_ORDER t ≤ (TIER_ORDER.length : Int) - 1 := by
  cases t <;> decide

theorem tierAt_mem (i : Int) (h0 : 0 ≤ i) (h9 : i ≤ (TIER_ORDER.length : Int) - 1) :
    ∃ tk, tierAt i = some tk ∧ tk ∈ TIER_ORDER := by
  have hlen : TIER_ORDER.length = 10 := rfl
  have h9' : i ≤ 9 := by omega
  interval_cases i <;> exact ⟨_, rfl, by decide⟩

theorem promoLoopGo_reaches (p d t : Int) :
    ∃ r, promoLoopGo (p.toNat + 1) p d t = some r := by
  have h := promoLoopGo_fuel_enough p.toNat p d t le_rfl
  exact Option.isSome_iff_exists.mp h

theorem demoLoopGo_reaches (p d t : Int) :
    ∃ r, demoLoopGo ((-p).toNat + 1) p d t = some r := by
  have h := demoLoopGo_fuel_enough (-p).toNat p d t le_rfl
  exact Option.isSome_iff_exists.mp h

theorem calculateNewRankGo_sound (fuel : Nat) (c : PlayerRank) (δ : Int)
    (nr : NewRank) (h : calculateNewRankGo fuel c δ = some nr) :
    calculateNewRank c δ = nr := by
  unfold calculateNewRankGo at h
  cases hs1 : promoLoopGo fuel (c.points + δ) c.division (jsIndexOf TIER_ORDER c.tier) with
  | none => simp [hs1] at h
  | some s1 =>
    cases hs2 : demoLoopGo fuel s1.1 s1.2.1 s1.2.2 with
    | none => simp [hs1, hs2] at h
    | some s2 =>
      simp only [hs1, hs2, Option.some_bind] at h
      have e1 := promoLoopGo_sound fuel _ _ _ _ hs1
      have e2 := demoLoopGo_sound fuel _ _ _ _ hs2
      simp only [calculateNewRank]
      rw [e1, e2]
      exact Option.some_injective _ h

theorem calculateNewRank_bounds (c : PlayerRank) (δ : Int)
    (hd1 : 1 ≤ c.division) (hd4 : c.division ≤ 4) :
    0 ≤ (calculateNewRank c δ).points ∧
      (calculateNewRank c δ).points < POINTS_PER_DIVISION ∧
      1 ≤ (calculateNewRank c δ).division ∧ (calculateNewRank c δ).division ≤ 4 ∧
      ∃ tk, (calculateNewRank c δ).tier = some tk ∧ tk ∈ TIER_ORDER := by
  obtain ⟨s1, hs1⟩ := promoLoopGo_reaches (c.points + δ) c.division
    (jsIndexOf TIER_ORDER c.tier)
  obtain ⟨hi0, hi9⟩ := jsIndexOf_TIER_ORDER_bounds c.tier
  have hb1 := promoLoopGo_bounds _ _ _ _ _ hs1 hd1 hd4 hi0 hi9
  obtain ⟨s2, hs2⟩ := demoLoopGo_reaches s1.1 s1.2.1 s1.2.2
  have hb2 := demoLoopGo_bounds _ _ _ _ _ hs2 hb1.1 hb1.2.1 hb1.2.2.1
    hb1.2.2.2.1 hb1.2.2.2.2
  have e1 := promoLoopGo_sound _ _ _ _ _ hs1
  have e2 := demoLoopGo_sound _ _ _ _ _ hs2
  obtain ⟨tk, htk, hmem⟩ := tierAt_mem s2.2.2 hb2.2.2.2.2.1 hb2.2.2.2.2.2
  have hcalc : calculateNewRank c δ =
      { tier := tierAt s2.2.2, division := s2.2.1, points := s2.1 } := by
    simp only [calculateNewRank]
    rw [e1, e2]
  rw [hcalc]
  exact ⟨hb2.1, hb2.2.1, hb2.2.2.1, hb2.2.2.2.1, tk, htk, hmem⟩

/-- Claim C2: for every player rank satisfying the invariant (0 ≤ points <
100, 1 ≤ division ≤ 4, tier in the ordered 10-tier set — automatic for any
`TierKey`) and for each of the two deltas `updateRankAfterMatch` applies (+12
on win, −4 on loss), the resulting rank again has 0 ≤ points < 100,
1 ≤ division ≤ 4, and a tier belonging to `TIER_ORDER`. -/
theorem applyMatchResult_preserves_invariant (r : PlayerRank) (isWin : Bool)
    (hp0 : 0 ≤ r.points) (hp1 : r.points < 100)
    (hd1 : 1 ≤ r.division) (hd4 : r.division ≤ 4) :
    0 ≤ (updateRankAfterMatch r isWin).after.points ∧
      (updateRankAfterMatch r isWin).after.points < 100 ∧
      1 ≤ (updateRankAfterMatch r isWin).after.division ∧
      (updateRankAfterMatch r isWin).after.division ≤ 4 ∧
      ∃ tk, (updateRankAfterMatch r isWin).after.tier = some tk ∧
        tk ∈ TIER_ORDER := by
  have h := calculateNewRank_bounds r (if isWin then WIN_POINTS else -LOSS_POINTS)
    hd1 hd4
  simp only [POINTS_PER_DIVISION] at h
  simpa only [updateRankAfterMatch] using h

/-- Witness for C2 at a concrete invariant-satisfying rank. -/
theorem applyMatchResult_preserves_invariant_witness :
    (0 ≤ goldRank80.points ∧ goldRank80.points < 100 ∧
      1 ≤ goldRank80.division ∧ goldRank80.division ≤ 4) ∧
    (0 ≤ (updateRankAfterMatch goldRank80 true).after.points ∧
      (updateRankAfterMatch goldRank80 true).after.points < 100 ∧
      1 ≤ (updateRankAfterMatch goldRank80 true).after.division ∧
      (updateRankAfterMatch goldRank80 true).after.division ≤ 4 ∧
      ∃ tk, (updateRankAfterMatch goldRank80 true).after.tier = some tk ∧
        tk ∈ TIER_ORDER) :=
  ⟨by decide,
    applyMatchResult_preserves_invariant goldRank80 true (by decide) (by decide)
      (by decide) (by decide)⟩

/-- Claim C9: `calculateNewRank` terminates for every starting rank and every
integer point delta — the fuel-indexed executor of its two loops reaches the
final answer with a finite amount of fuel (each promotion iteration consumes
100 points or breaks at the top of the ladder, each demotion iteration adds
100 points toward zero or breaks at the bottom). -/
theorem calculateNewRank_terminates (c : PlayerRank) (δ : Int) :
    ∃ fuel : Nat, calculateNewRankGo fuel c δ = some (calculateNewRank c δ) := by
  obtain ⟨s1, hs1⟩ := promoLoopGo_reaches (c.points + δ) c.division
    (jsIndexOf TIER_ORDER c.tier)
  obtain ⟨s2, hs2⟩ := demoLoopGo_reaches s1.1 s1.2.1 s1.2.2
  refine ⟨max ((c.points + δ).toNat + 1) ((-s1.1).toNat + 1), ?_⟩
  have h1 := promoLoopGo_mono ((c.points + δ).toNat + 1)
    (max ((c.points + δ).toNat + 1) ((-s1.1).toNat + 1)) _ _ _ _
    (le_max_left _ _) hs1
  have h2 := demoLoopGo_mono ((-s1.1).toNat + 1)
    (max ((c.points + δ).toNat + 1) ((-s1.1).toNat + 1)) _ _ _ _
    (le_max_right _ _) hs2
  have e1 := promoLoopGo_sound _ _ _ _ _ hs1
  have e2 := demoLoopGo_sound _ _ _ _ _ hs2
  unfold calculateNewRankGo
  rw [h1]
  simp only [Option.some_bind]
  rw [h2]
  simp only [Option.some_bind, calculateNewRank]
  rw [e1, e2]

/-- Claim C5: from Gold division 2 with 80 points a win (+12) yields 92 points
with tier and division unchanged and `promoted = false`; a further win from 92
points reaches 104, consumes 100, and yields Gold division 1 with 4 points and
`promoted = true`; and in both steps `promoted` holds iff the linearized rank
(`getTierValue`, tier index × 4 + (4 − division)) increased. -/
theorem gold_promotion_scenario :
    (updateRankAfterMatch goldRank80 true).after =
      { tier := some TierKey.Gold, division := 2, points := 92 } ∧
    (updateRankAfterMatch goldRank80 true).promoted = false ∧
    (updateRankAfterMatch goldRank92 true).after =
      { tier := some TierKey.Gold, division := 1, points := 4 } ∧
    (updateRankAfterMatch goldRank92 true).promoted = true ∧
    ((updateRankAfterMatch goldRank80 true).promoted = true ↔
      getTierValueOpt (updateRankAfterMatch goldRank80 true).after.tier
          (updateRankAfterMatch goldRank80 true).after.division >
        getTierValue goldRank80.tier goldRank80.division) ∧
    ((updateRankAfterMatch goldRank92 true).promoted = true ↔
      getTierValueOpt (updateRankAfterMatch goldRank92 true).after.tier
          (updateRankAfterMatch goldRank92 true).after.division >
        getTierValue goldRank92.tier goldRank92.division) := by
  have e1 : calculateNewRank goldRank80 WIN_POINTS =
      { tier := some TierKey.Gold, division := 2, points := 92 } :=
    calculateNewRankGo_sound 2 _ _ _ (by decide)
  have e2 : calculateNewRank goldRank92 WIN_POINTS =
      { tier := some TierKey.Gold, division := 1, points := 4 } :=
    calculateNewRankGo_sound 3 _ _ _ (by decide)
  have u1 : updateRankAfterMatch goldRank80 true =
      { before := { tier := some TierKey.Gold, division := 2, points := 80 },
        after := { tier := some TierKey.Gold, division := 2, points := 92 },
        pointsDelta := WIN_POINTS, promoted := false, demoted := false } := by
    simp only [updateRankAfterMatch, if_true]
    rw [e1]
    decide
  have u2 : updateRankAfterMatch goldRank92 true =
      { before := { tier := some TierKey.Gold, division := 2, points := 92 },
        after := { tier := some TierKey.Gold, division := 1, points := 4 },
        pointsDelta := WIN_POINTS, promoted := true, demoted := false } := by
    simp only [updateRankAfterMatch, if_true]
    rw [e2]
    decide
  rw [u1, u2]
  decide

/-- Claim C3 (code evidence): with zero stored hearts and a full recharge
interval elapsed since the anchor, `useOnlineHeart` returns `false` and leaves
the row untouched even though the lazy recharge would have restored one heart
(the `rank.onlineHearts <= 0` early return fires before
`rechargeHeartsIfNeeded` is consulted). -/
theorem useOnlineHeart_skips_recharge_at_zero :
    useOnlineHeart zeroHeartsRank ONLINE_HEART_RECHARGE_MS =
      (false, zeroHeartsRank) ∧
    (rechargeHeartsIfNeeded zeroHeartsRank ONLINE_HEART_RECHARGE_MS).2.onlineHearts
      = 1 := by
  decide

/-- Counterexample to claim C4: `getOnlineHearts` is not pure with respect to
the stored rank row — when a recharge is due it persists the recharge,
changing the stored record. -/
theorem getOnlineHearts_mutates_stored_rank :
    (getOnlineHearts fourHeartsRank ONLINE_HEART_RECHARGE_MS).2 ≠
      fourHeartsRank := by
  decide

/-- Claim C4 (amended): `getOnlineHearts` never consumes energy — the stored
hearts never decrease — and it returns the post-recharge energy; whenever no
recharge is due (hearts already at the maximum, no recharge anchor, or less
than one full interval elapsed) the stored record is left completely
unchanged. -/
theorem rechargeHeartsIfNeeded_noop (rank : PlayerRank) (now : Int)
    (hno : MAX_ONLINE_HEARTS ≤ rank.onlineHearts ∨ rank.heartsRechargedAt = none ∨
      (∃ t0, rank.heartsRechargedAt = some t0 ∧
        Int.fdiv (now - t0) ONLINE_HEART_RECHARGE_MS ≤ 0)) :
    rechargeHeartsIfNeeded rank now = (rank, rank) := by
  unfold rechargeHeartsIfNeeded
  rcases hno with hno | hno | ⟨t0, ht0, hno⟩
  · rw [if_pos (show rank.onlineHearts ≥ MAX_ONLINE_HEARTS by omega)]
  · simp only [hno]
    split_ifs <;> rfl
  · simp only [ht0]
    split_ifs <;> first | rfl | (exfalso; omega)

theorem rechargeHeartsIfNeeded_due (rank : PlayerRank) (now : Int) (t0 : Int)
    (hA : rank.heartsRechargedAt = some t0)
    (hM : rank.onlineHearts < MAX_ONLINE_HEARTS)
    (hAdd : 0 < Int.fdiv (now - t0) ONLINE_HEART_RECHARGE_MS) :
    rechargeHeartsIfNeeded rank now =
      ({ rank with
          onlineHearts := min MAX_ONLINE_HEARTS
            (rank.onlineHearts + Int.fdiv (now - t0) ONLINE_HEART_RECHARGE_MS),
          heartsRechargedAt :=
            if min MAX_ONLINE_HEARTS
                (rank.onlineHearts + Int.fdiv (now - t0) ONLINE_HEART_RECHARGE_MS) <
                MAX_ONLINE_HEARTS then
              some now
            else none },
        { rank with
          onlineHearts := min MAX_ONLINE_HEARTS
            (rank.onlineHearts + Int.fdiv (now - t0) ONLINE_HEART_RECHARGE_MS) }) := by
  unfold rechargeHeartsIfNeeded
  simp only [hA]
  split_ifs <;> first | rfl | (exfalso; omega)

/-- Claim C4 (amended): `getOnlineHearts` never consumes energy — the stored
hearts never decrease — and it returns the post-recharge energy; whenever no
recharge is due (hearts already at the maximum, no recharge anchor, or less
than one full interval elapsed) the stored record is left completely
unchanged. -/
theorem peekEnergy_never_consumes (stored : PlayerRank) (now : Int) :
    stored.onlineHearts ≤ (getOnlineHearts stored now).2.onlineHearts ∧
    (getOnlineHearts stored now).1.1 = (getOnlineHearts stored now).2.onlineHearts ∧
    ((MAX_ONLINE_HEARTS ≤ stored.onlineHearts ∨ stored.heartsRechargedAt = none ∨
        (∃ t0, stored.heartsRechargedAt = some t0 ∧
          Int.fdiv (now - t0) ONLINE_HEART_RECHARGE_MS ≤ 0)) →
      (getOnlineHearts stored now).2 = stored) := by
  by_cases hdue : stored.onlineHearts < MAX_ONLINE_HEARTS ∧
      ∃ t0, stored.heartsRechargedAt = some t0 ∧
        0 < Int.fdiv (now - t0) ONLINE_HEART_RECHARGE_MS
  · obtain ⟨hM, t0, hA, hAdd⟩ := hdue
    have hre := rechargeHeartsIfNeeded_due stored now t0 hA hM hAdd
    unfold getOnlineHearts
    rw [hre]
    refine ⟨le_min (by omega) ?_, rfl, fun hno => ?_⟩
    · omega
    · rcases hno with hno | hno | ⟨t1, ht1, hno⟩
      · exact absurd hno (by omega)
      · exact absurd (hA ▸ hno) (by simp)
      · rw [hA] at ht1
        obtain rfl := Option.some_injective _ ht1
        exact absurd hno (by omega)
  · have hno' : MAX_ONLINE_HEARTS ≤ stored.onlineHearts ∨
        stored.heartsRechargedAt = none ∨
        (∃ t0, stored.heartsRechargedAt = some t0 ∧
          Int.fdiv (now - t0) ONLINE_HEART_RECHARGE_MS ≤ 0) := by
      by_cases hM : stored.onlineHearts < MAX_ONLINE_HEARTS
      · cases hA : stored.heartsRechargedAt with
        | none => exact Or.inr (Or.inl rfl)
        | some t0 =>
          refine Or.inr (Or.inr ⟨t0, rfl, ?_⟩)
          by_contra hAdd
          exact hdue ⟨hM, t0, hA, by omega⟩
      · exact Or.inl (by omega)
    have hre := rechargeHeartsIfNeeded_noop stored now hno'
    unfold getOnlineHearts
    rw [hre]
    exact ⟨le_refl _, rfl, fun _ => rfl⟩

/-- Witness for the amended C4 at a concrete input with no recharge due. -/
theorem peekEnergy_never_consumes_witness :
    (MAX_ONLINE_HEARTS ≤ fullHeartsRank.onlineHearts ∨
      fullHeartsRank.heartsRechargedAt = none ∨
      (∃ t0, fullHeartsRank.heartsRechargedAt = some t0 ∧
        Int.fdiv (0 - t0) ONLINE_HEART_RECHARGE_MS ≤ 0)) ∧
    (getOnlineHearts fullHeartsRank 0).2 = fullHeartsRank :=
  ⟨Or.inl (by decide),
    (peekEnergy_never_consumes fullHeartsRank 0).2.2 (Or.inl (by decide))⟩

/-- Claim C8: battle termination is idempotent — once `result` has been
resolved away from `pending`, a further opponent game-over signal and a
further own game-over each leave the whole module state (result included)
unchanged and do not run the `endBattle` termination sequence again. -/
theorem battle_termination_idempotent (m : BattleGameModule) (st : BattleState)
    (hst : m.battleState = some st) (hres : st.result ≠ BattleResult.pending) :
    handleOpponentGameOver m = m ∧ onMyGameOver m = m := by
  unfold handleOpponentGameOver onMyGameOver
  simp only [hst]
  simp [hres]

/-- Witness for C8 at a session whose result is already `win`. -/
theorem battle_termination_idempotent_witness :
    (finishedModule.battleState = some finishedState ∧
      finishedState.result ≠ BattleResult.pending) ∧
    (handleOpponentGameOver finishedModule = finishedModule ∧
      onMyGameOver finishedModule = finishedModule) :=
  ⟨⟨rfl, by decide⟩,
    battle_termination_idempotent finishedModule finishedState rfl (by decide)⟩

/-- Claim C7 (code evidence): in `handleOpponentReady` the host (the player
whose id sorts lower) starts the countdown as soon as the OPPONENT's ready
signal arrives — the module records no local readiness at all, so the
countdown starts even though the local player never sent ready
(`sentMessages = []`). -/
theorem countdown_starts_without_own_ready :
    hostModule.sentMessages = [] ∧ hostModule.countdownInterval = false ∧
    (handleOpponentReady hostModule).countdownInterval = true := by
  have hab : ("a" : String) < "b" := String.lt_iff_toList_lt.mpr (by decide)
  refine ⟨rfl, rfl, ?_⟩
  show (if ("a" : String) < "b" then startCountdown hostModule
    else hostModule).countdownInterval = true
  rw [if_pos hab]
  rfl

/-- Claim C10: when the garbage-table entry for the cleared-lines count is
zero or absent, `onLinesCleared` during a started battle leaves the module —
battle session state, counters and sent messages — completely unchanged. -/
theorem zero_garbage_is_noop (m : BattleGameModule) (st : BattleState)
    (linesCleared : Int)
    (hst : m.battleState = some st) (hch : m.battleChannel = true)
    (hstart : st.isStarted = true)
    (hz : GARBAGE_TABLE linesCleared = some 0 ∨ GARBAGE_TABLE linesCleared = none) :
    onLinesCleared m linesCleared = m := by
  have hg : (GARBAGE_TABLE linesCleared).getD 0 = 0 := by
    rcases hz with h | h <;> rw [h] <;> rfl
  unfold onLinesCleared
  simp only [hst, hg]
  simp

/-- Witness for C10: a single-line clear (table entry 0) in a started battle. -/
theorem zero_garbage_is_noop_witness :
    (cleanModule.battleState = some cleanState ∧ cleanModule.battleChannel = true ∧
      cleanState.isStarted = true ∧
      (GARBAGE_TABLE 1 = some 0 ∨ GARBAGE_TABLE 1 = none)) ∧
    onLinesCleared cleanModule 1 = cleanModule :=
  ⟨⟨rfl, rfl, rfl, Or.inl rfl⟩,
    zero_garbage_is_noop cleanModule cleanState 1 rfl rfl rfl (Or.inl rfl)⟩

/-- Claim C6: during a started battle, with `toSend` given by the garbage
table, a positive `toSend` decreases the incoming counter by
`min(incoming, toSend)`, sends a single attack of `toSend − incoming` exactly
when the incoming garbage does not absorb all of it, and sends nothing when it
does. -/
theorem garbage_cancellation_single_send (m : BattleGameModule) (st : BattleState)
    (linesCleared : Int)
    (hst : m.battleState = some st) (hch : m.battleChannel = true)
    (hstart : st.isStarted = true) (hinc : 0 ≤ st.incomingGarbage)
    (hpos : 0 < (GARBAGE_TABLE linesCleared).getD 0) :
    ∃ st1, (onLinesCleared m linesCleared).battleState = some st1 ∧
      st1.incomingGarbage =
        st.incomingGarbage -
          min st.incomingGarbage ((GARBAGE_TABLE linesCleared).getD 0) ∧
      (st.incomingGarbage < (GARBAGE_TABLE linesCleared).getD 0 →
        (onLinesCleared m linesCleared).sentMessages =
          m.sentMessages ++
            [ChannelMsg.garbageAttack
              ((GARBAGE_TABLE linesCleared).getD 0 - st.incomingGarbage)]) ∧
      ((GARBAGE_TABLE linesCleared).getD 0 ≤ st.incomingGarbage →
        (onLinesCleared m linesCleared).sentMessages = m.sentMessages) := by
  unfold onLinesCleared
  simp only [hst, hch, hstart, Bool.not_true, Bool.false_eq_true, if_false]
  rw [if_neg (show ¬ (GARBAGE_TABLE linesCleared).getD 0 ≤ 0 by omega)]
  by_cases h1 : st.incomingGarbage > 0
  · rw [if_pos h1]
    by_cases h2 :
        (GARBAGE_TABLE linesCleared).getD 0 -
          min st.incomingGarbage ((GARBAGE_TABLE linesCleared).getD 0) > 0
    · rw [if_pos h2]
      refine ⟨_, rfl, rfl, fun hlt => ?_, fun hle => ?_⟩
      · rw [min_eq_left (by omega : st.incomingGarbage ≤
          (GARBAGE_TABLE linesCleared).getD 0)]
      · rw [min_eq_right hle] at h2
        exact absurd h2 (by omega)
    · rw [if_neg h2]
      refine ⟨_, rfl, rfl, fun hlt => ?_, fun hle => ?_⟩
      · rw [min_eq_left (by omega : st.incomingGarbage ≤
          (GARBAGE_TABLE linesCleared).getD 0)] at h2
        exact absurd hlt (by omega)
      · rfl
  · rw [if_neg h1]
    have hinc0 : st.incomingGarbage = 0 := by omega
    refine ⟨_, rfl, ?_, fun hlt => ?_, fun hle => ?_⟩
    · show st.incomingGarbage =
        st.incomingGarbage -
          min st.incomingGarbage ((GARBAGE_TABLE linesCleared).getD 0)
      rw [min_eq_left (by omega : st.incomingGarbage ≤
        (GARBAGE_TABLE linesCleared).getD 0)]
      omega
    · rw [hinc0, sub_zero]
    · exact absurd hle (by omega)

/-- Witness for C6: incoming = 3, clearing 2 lines (`toSend` = 1) cancels one
line, leaves incoming at 2 and sends nothing. -/
theorem garbage_cancellation_single_send_witness :
    (garbageModule.battleState = some garbageState ∧
      garbageModule.battleChannel = true ∧ garbageState.isStarted = true ∧
      0 ≤ garbageState.incomingGarbage ∧ 0 < (GARBAGE_TABLE 2).getD 0) ∧
    (∃ st1, (onLinesCleared garbageModule 2).battleState = some st1 ∧
      st1.incomingGarbage =
        garbageState.incomingGarbage -
          min garbageState.incomingGarbage ((GARBAGE_TABLE 2).getD 0) ∧
      (garbageState.incomingGarbage < (GARBAGE_TABLE 2).getD 0 →
        (onLinesCleared garbageModule 2).sentMessages =
          garbageModule.sentMessages ++
            [ChannelMsg.garbageAttack
              ((GARBAGE_TABLE 2).getD 0 - garbageState.incomingGarbage)]) ∧
      ((GARBAGE_TABLE 2).getD 0 ≤ garbageState.incomingGarbage →
        (onLinesCleared garbageModule 2).sentMessages =
          garbageModule.sentMessages)) :=
  ⟨⟨rfl, rfl, rfl, by decide, by decide⟩,
    garbage_cancellation_single_send garbageModule garbageState 2 rfl rfl rfl
      (by decide) (by decide)⟩

/-- Claim C1 (code evidence): a pairing attempt whose conditional update flips
only ONE of the two rows (the searcher's own entry was already `matched` by a
concurrent pairing) still creates a Match row — the source only checks the
update's error flag, which a partial (or empty) conditional update does not
set, so the attempt is NOT abandoned. -/
theorem match_created_despite_partial_flip :
    selectOldestCandidate racedStore.queue "alice"
        (getMatchableTiers aliceRank.tier) =
      some { userId := "carol", displayName := "Carol", tier := TierKey.Iron,
             division := 4, totalPoints := 0, status := QueueStatus.waiting,
             createdAt := 5 } ∧
    matchedFlipAffectedRows racedStore.queue "alice" "carol" = 1 ∧
    (tryFindOpponent racedStore "alice" aliceRank).matchRows =
      [{ player1Id := "alice", player2Id := "carol", player1Name := "Alice",
         player2Name := "Carol", status := MatchStatus.pending }] := by
  decide
